import Mathlib

/-!
Verification of the gorse feed poller (horgh/gorse) against its
natural-language specification.

The definitions below are a shallow embedding of the item admission
logic of cmd/gorsepoll/gorsepoll.go and of the feed decoding entry
points of gorselib/decode.go.  Timestamps (Go time.Time values) are
modelled as Nat with the usual order; the Go zero time is 0.  The
per-feed slice of the database (the rows of rss_item, rss_item_archive
and rss_item_state belonging to one feed) is modelled explicitly as
lists; SQL queries that the code issues are translated into the
corresponding list operations.  Fallible Go functions returning
(T, error) become Except String T.  Log output is modelled as a list of
structured events so that claims about logging are statable.
-/

namespace Gorse

/-- Read state of an item for a user (gorse.go: ReadState). -/
inductive ReadState
  | unread
  | read
  | readLater
deriving DecidableEq, Repr

/-- A normalized feed item as the poller sees it after parsing
(the rss.Item consumed by gorsepoll.go: Title, Link, Description,
PubDate, GUID).  As in the Go code, an absent GUID is the empty
string. -/
structure Item where
  title : String
  link : String
  description : String
  pubDate : Nat
  guid : String
deriving DecidableEq, Repr

/-- A stored item row (rss_item / rss_item_archive; gorse.go: DBItem).
Here guid is a nullable column, so an Option. -/
structure DBItem where
  id : Nat
  title : String
  description : String
  link : String
  pubDate : Nat
  guid : Option String
deriving DecidableEq, Repr

/-- A feed row (gorsepoll.go: DBFeed).  lastUpdateTime is nullable:
none means the feed was never polled. -/
structure DBFeed where
  id : Nat
  name : String
  uri : String
  updateFrequencySeconds : Nat
  lastUpdateTime : Option Nat
  archive : Bool
deriving DecidableEq, Repr

/-- A row of rss_item_state: (user_id, item_id, state). -/
structure ReadRow where
  userId : Nat
  itemId : Nat
  state : ReadState
deriving DecidableEq, Repr

/-- The slice of the database belonging to one feed: its rss_item rows,
its rss_item_archive rows, the read-state rows of its items, and the
next id the serial primary key would hand out. -/
structure FeedDB where
  items : List DBItem
  archiveItems : List DBItem
  readStates : List ReadRow
  nextId : Nat
deriving DecidableEq, Repr

/-- Log lines emitted by the poller that the claims mention, as
structured events (the format strings themselves live in gorsepoll.go). -/
inductive LogEvent
  | blankLink (feedName title : String)
  | skipOld (feedName : String) (pubDate cutoffTime : Nat) (title link : String)
  | addedItem (title feedName : String)
deriving DecidableEq, Repr

/-- feedItemExistsByGUID (gorsepoll.go): counts rows of rss_item and of
rss_item_archive with this feed id and guid; true when either query
produces a row. -/
def feedItemExistsByGUID (db : FeedDB) (guid : String) : Bool :=
  db.items.any (fun x => x.guid == some guid) ||
    db.archiveItems.any (fun x => x.guid == some guid)

/-- feedItemExistsByLink (gorsepoll.go): counts rows of rss_item and of
rss_item_archive with this feed id and link; true when either query
produces a row. -/
def feedItemExistsByLink (db : FeedDB) (link : String) : Bool :=
  db.items.any (fun x => x.link == link) ||
    db.archiveItems.any (fun x => x.link == link)

/-- FindItemByLink (gorse.go): selects the rss_item row with this
feed id and link.  The snapshot of gorse.go in the repository wraps the
no-rows case in an opaque scan error while gorsepoll.go matches on
gorse.ErrItemNotFound, whose definition is not under src/.
Modelled from the spec: the not-found outcome of the link lookup
(spec 4.5, the pre-existing-stored-item check) is the none case of an
Option. -/
def findItemByLink (db : FeedDB) (link : String) : Option DBItem :=
  db.items.find? (fun x => x.link == link)

/-- dbSetItemGUID (gorsepoll.go): UPDATE rss_item SET guid where id
matches. -/
def dbSetItemGUID (db : FeedDB) (id : Nat) (guid : String) : FeedDB :=
  { db with
    items := db.items.map fun x =>
      if x.id == id then { x with guid := some guid } else x }

/-- DBSetItemReadState (gorse.go): upsert into rss_item_state on
conflict of (user_id, item_id). -/
def setItemReadState (db : FeedDB) (itemId userId : Nat) (st : ReadState) : FeedDB :=
  if db.readStates.any (fun r => r.userId == userId && r.itemId == itemId) then
    { db with
      readStates := db.readStates.map fun r =>
        if r.userId == userId && r.itemId == itemId then { r with state := st } else r }
  else
    { db with readStates := db.readStates ++ [⟨userId, itemId, st⟩] }

/-- getFeedCutoffTime (gorsepoll.go lines 400-451): the maximum
publication_date over the union of the feed's rss_item and
rss_item_archive rows; when both tables hold no row for the feed the
SQL MAX is null, the scan loop skips it and the default, the zero
time, is returned.  With Nat timestamps the zero time is 0 and the
whole computation is a fold of max with base 0. -/
def getFeedCutoffTime (db : FeedDB) : Nat :=
  ((db.items ++ db.archiveItems).map (fun x => x.pubDate)).foldr max 0

/-- fixOldItem (gorsepoll.go lines 673-715): the item's guid was not
found; look the item up by link.  Not found: nothing to fix (record).
Found without a guid: backfill the guid onto the row and report found.
Found with a guid: an error either way (a matching guid should have
been caught by the guid existence check; a different guid is a
mismatch). -/
def fixOldItem (db : FeedDB) (item : Item) : Except String (Bool × FeedDB) :=
  match findItemByLink db item.link with
  | none => .ok (false, db)
  | some dbItem =>
    match dbItem.guid with
    | none => .ok (true, dbSetItemGUID db dbItem.id item.guid)
    | some g =>
      if g = item.guid then
        .error "item found by GUID, but this should not happen"
      else
        .error "mismatching GUID for item"

/-- shouldRecordItem (gorsepoll.go lines 554-617).  Returns the
decision, the possibly-updated database (fixOldItem may backfill a
guid) and the emitted log events.  The quiet parameter mirrors
config.Quiet; note the publication-time skip is logged without
consulting it, exactly as in the source. -/
def shouldRecordItem (feed : DBFeed) (item : Item) (cutoffTime : Nat)
    (ignorePublicationTimes : Bool) (quiet : Nat) (db : FeedDB) :
    Except String (Bool × FeedDB × List LogEvent) :=
  match feed.lastUpdateTime with
  | none => .ok (true, db, [])
  | some _ =>
    if item.guid = "" then
      if feedItemExistsByLink db item.link then .ok (false, db, [])
      else if ignorePublicationTimes then .ok (true, db, [])
      else if item.pubDate < cutoffTime then
        .ok (false, db,
          [LogEvent.skipOld feed.name item.pubDate cutoffTime item.title item.link])
      else .ok (true, db, [])
    else
      if feedItemExistsByGUID db item.guid then .ok (false, db, [])
      else
        match fixOldItem db item with
        | .error e => .error e
        | .ok (found, db1) =>
          if found then .ok (false, db1, []) else .ok (true, db1, [])

/-- The rss_item row the INSERT of recordFeedItem produces: title,
description, link, publication date from the item; guid stored as null
when the item has none (the var guid *string of the source). -/
def insertedRow (item : Item) (id : Nat) : DBItem :=
  ⟨id, item.title, item.description, item.link, item.pubDate,
    if item.guid = "" then none else some item.guid⟩

/-- recordFeedItem (gorsepoll.go lines 456-518): decide via
shouldRecordItem; on a positive decision insert the row (guid stored as
null when the item has none) and, when the feed had never been polled
or is in archive mode, immediately set the new row read for user 1. -/
def recordFeedItem (feed : DBFeed) (item : Item) (cutoffTime : Nat)
    (ignorePublicationTimes : Bool) (quiet : Nat) (db : FeedDB) :
    Except String (Bool × FeedDB × List LogEvent) :=
  match shouldRecordItem feed item cutoffTime ignorePublicationTimes quiet db with
  | .error e => .error e
  | .ok (false, db1, logs) => .ok (false, db1, logs)
  | .ok (true, db1, logs) =>
    let id := db1.nextId
    let db2 : FeedDB :=
      { db1 with
        items := db1.items ++ [insertedRow item id],
        nextId := id + 1 }
    let db3 : FeedDB :=
      if feed.lastUpdateTime = none ∨ feed.archive = true then
        setItemReadState db2 id 1 ReadState.read
      else db2
    .ok (true, db3,
      logs ++ (if quiet = 0 then [LogEvent.addedItem item.title feed.name] else []))

/-- Result of the per-item loop of updateFeed: the database after the
loop, how many items were inserted, the log events, and the error that
aborted the loop, if any. -/
structure LoopResult where
  db : FeedDB
  recorded : Nat
  logs : List LogEvent
  err : Option String
deriving DecidableEq, Repr

/-- The item loop of updateFeed (gorsepoll.go lines 294-317): an item
with a blank link is logged and skipped, the loop continues; a
recordFeedItem error aborts the loop (and with it the feed's cycle). -/
def updateFeedItems (feed : DBFeed) (items : List Item) (cutoffTime : Nat)
    (ignorePublicationTimes : Bool) (quiet : Nat) (db : FeedDB) : LoopResult :=
  match items with
  | [] => ⟨db, 0, [], none⟩
  | item :: rest =>
    if item.link = "" then
      let r := updateFeedItems feed rest cutoffTime ignorePublicationTimes quiet db
      ⟨r.db, r.recorded, LogEvent.blankLink feed.name item.title :: r.logs, r.err⟩
    else
      match recordFeedItem feed item cutoffTime ignorePublicationTimes quiet db with
      | .error e => ⟨db, 0, [], some e⟩
      | .ok (recorded, db1, logs) =>
        let r := updateFeedItems feed rest cutoffTime ignorePublicationTimes quiet db1
        ⟨r.db, (if recorded then 1 else 0) + r.recorded, logs ++ r.logs, r.err⟩

/-- The state of one feed as the poller sees it: the rss_feed row
(with last_update_time and last_payload) and the feed's item rows. -/
structure FeedState where
  feed : DBFeed
  db : FeedDB
  lastPayload : Option (List Nat)
deriving DecidableEq, Repr

/-- The outside-world outcomes one feed cycle can encounter: the result
of the HTTP fetch (retrieveFeed), whether the UPDATE storing the raw
payload succeeds, and the result of rss.ParseFeedXML on the payload.
These are inputs to the model because they come from the network, the
database connection and an external parsing library. -/
structure FeedCycleInput where
  fetchResult : Except String (List Nat)
  storePayloadOk : Bool
  parseResult : Except String (List Item)
deriving Repr

/-- updateFeed (gorsepoll.go lines 257-332): fetch, store the raw
payload, parse, compute the cutoff, then run the item loop.  Returns
the new state of the feed and whether the cycle succeeded.  Note the
feed row's last_update_time is never touched here. -/
def updateFeedRun (input : FeedCycleInput) (ignorePublicationTimes : Bool)
    (quiet : Nat) (fs : FeedState) : FeedState × Bool :=
  match input.fetchResult with
  | .error _ => (fs, false)
  | .ok payload =>
    if input.storePayloadOk then
      let fs1 : FeedState := { fs with lastPayload := some payload }
      match input.parseResult with
      | .error _ => (fs1, false)
      | .ok items =>
        let cutoffTime := getFeedCutoffTime fs1.db
        let r := updateFeedItems fs1.feed items cutoffTime ignorePublicationTimes quiet fs1.db
        match r.err with
        | some _ => ({ fs1 with db := r.db }, false)
        | none => ({ fs1 with db := r.db }, true)
    else (fs, false)

/-- shouldUpdateFeed (gorsepoll.go lines 237-255): poll when forced,
when never polled, or when at least updateFrequencySeconds have passed
since the last poll. -/
def shouldUpdateFeed (now : Nat) (feed : DBFeed) (ignorePollTimes : Bool) : Bool :=
  if ignorePollTimes then true
  else
    match feed.lastUpdateTime with
    | none => true
    | some t => decide (feed.updateFrequencySeconds ≤ now - t)

/-- One entry of a polling run: a feed's state together with the
outside-world outcomes its cycle would encounter, the clock reading
used for the due-ness test, the time.Now() captured just before
updateFeed is called (the candidate new last poll time), and whether
the recordFeedUpdate UPDATE would succeed. -/
structure FeedJob where
  fs : FeedState
  input : FeedCycleInput
  now : Nat
  updateTime : Nat
  recordUpdateOk : Bool
deriving Repr

/-- processFeeds (gorsepoll.go lines 188-233): for each feed, check
due-ness, capture updateTime, run the cycle; a cycle failure is logged
and the loop continues; on success recordFeedUpdate persists
updateTime as the new last_update_time, and if that UPDATE fails
processFeeds returns an error, leaving the remaining feeds
unprocessed.  The Bool of the result is whether the run aborted this
way. -/
def processFeeds (ignorePollTimes ignorePublicationTimes : Bool) (quiet : Nat) :
    List FeedJob → List FeedState × Bool
  | [] => ([], false)
  | j :: rest =>
    if shouldUpdateFeed j.now j.fs.feed ignorePollTimes then
      let step := updateFeedRun j.input ignorePublicationTimes quiet j.fs
      if step.2 then
        if j.recordUpdateOk then
          let fs1 : FeedState :=
            { step.1 with feed := { step.1.feed with lastUpdateTime := some j.updateTime } }
          let r := processFeeds ignorePollTimes ignorePublicationTimes quiet rest
          (fs1 :: r.1, r.2)
        else
          (step.1 :: rest.map (fun k => k.fs), true)
      else
        let r := processFeeds ignorePollTimes ignorePublicationTimes quiet rest
        (step.1 :: r.1, r.2)
    else
      let r := processFeeds ignorePollTimes ignorePublicationTimes quiet rest
      (j.fs :: r.1, r.2)

/-! The gorselib decoder (gorselib/decode.go).  Items here carry their
publication date still as a string, as in gorselib.Item. -/

/-- Item of a parsed channel (gorselib.Item), pre-normalization. -/
structure RawItem where
  title : String
  link : String
  description : String
  pubDate : String
  guid : String
deriving DecidableEq, Repr

/-- Channel, a feed parsed from any dialect (gorselib.Channel). -/
structure Channel where
  title : String
  link : String
  description : String
  pubDate : String
  lastBuildDate : String
  items : List RawItem
deriving DecidableEq, Repr

/-- The exact header bytes looksLikeXML requires, as characters. -/
def xmlHeader : List Char :=
  String.toList "<?xml version=\"1.0\" encoding=\""

/-- looksLikeXML (decode.go lines 164-179): the buffer must be at least
as long as the header and agree with it position by position. -/
def looksLikeXML (data : List Char) : Except String Unit :=
  if data.length < xmlHeader.length then
    .error "buffer is too short to have XML header"
  else if data.take xmlHeader.length = xmlHeader then
    .ok ()
  else
    .error "buffer does not have XML header"

/-- ParseFeedXML (decode.go lines 134-162): check the XML header, then
try the RSS, RDF and Atom parses in that order, returning the first
success; when all three fail return an error.  The three dialect
parsers are parameters of the model: their bodies delegate to the
external encoding/xml decoder. -/
def ParseFeedXML (parseAsRSS parseAsRDF parseAsAtom : List Char → Except String Channel)
    (data : List Char) : Except String Channel :=
  match looksLikeXML data with
  | .error e => .error e
  | .ok _ =>
    match parseAsRSS data with
    | .ok ch => .ok ch
    | .error _ =>
      match parseAsRDF data with
      | .ok ch => .ok ch
      | .error _ =>
        match parseAsAtom data with
        | .ok ch => .ok ch
        | .error _ => .error "unable to parse as RSS, RDF, or Atom"

/-- GetItemPubDate (decode.go lines 349-398): an empty publication-date
string yields the current time; otherwise the RFC1123, RFC1123Z and
RFC3339 parses are tried in that order and the first success is used;
when none succeeds the current time is returned.  The three time.Parse
calls are parameters (they are the Go standard library); now is the
time.Now() value.  The function is total by construction: it always
returns a timestamp. -/
def GetItemPubDate (now : Nat) (parseRFC1123 parseRFC1123Z parseRFC3339 : String → Option Nat)
    (pubDate : String) : Nat :=
  if pubDate.length = 0 then now
  else
    match parseRFC1123 pubDate with
    | some t => t
    | none =>
      match parseRFC1123Z pubDate with
      | some t => t
      | none =>
        match parseRFC3339 pubDate with
        | some t => t
        | none => now

/-- Well-formedness of a feed's database slice: row ids of the main
table are pairwise distinct and below the serial counter (what the
serial primary key guarantees). -/
def WF (db : FeedDB) : Prop :=
  (db.items.map (fun x => x.id)).Nodup ∧ ∀ x ∈ db.items, x.id < db.nextId

instance (db : FeedDB) : Decidable (WF db) := by
  unfold WF
  infer_instance

instance {ε α : Type} [DecidableEq ε] [DecidableEq α] : DecidableEq (Except ε α)
  | .error e, .error f =>
    if h : e = f then isTrue (by rw [h]) else isFalse (fun hh => by cases hh; exact h rfl)
  | .error _, .ok _ => isFalse (fun hh => by cases hh)
  | .ok _, .error _ => isFalse (fun hh => by cases hh)
  | .ok a, .ok b =>
    if h : a = b then isTrue (by rw [h]) else isFalse (fun hh => by cases hh; exact h rfl)

/-! Generic facts about folding max over a list of timestamps. -/

lemma foldr_max_append (l1 l2 : List Nat) :
    (l1 ++ l2).foldr max 0 = max (l1.foldr max 0) (l2.foldr max 0) := by
  induction l1 with
  | nil => simp
  | cons a t ih => simp [ih, Nat.max_assoc]

lemma le_foldr_max {l : List Nat} {a : Nat} (h : a ∈ l) : a ≤ l.foldr max 0 := by
  induction l with
  | nil => cases h
  | cons b t ih =>
    rcases List.mem_cons.mp h with rfl | h2
    · exact Nat.le_max_left _ _
    · exact le_trans (ih h2) (Nat.le_max_right _ _)

lemma foldr_max_mem {l : List Nat} (h : l ≠ []) : l.foldr max 0 ∈ l := by
  induction l with
  | nil => exact absurd rfl h
  | cons b t ih =>
    cases t with
    | nil => simp
    | cons c u =>
      have hmem := ih (by simp)
      rcases le_total b ((c :: u).foldr max 0) with hb | hb
      · rw [List.foldr_cons, Nat.max_eq_right hb]
        exact List.mem_cons_of_mem _ hmem
      · rw [List.foldr_cons, Nat.max_eq_left hb]
        exact List.mem_cons_self _ _

/-! Facts about the read-state upsert. -/

lemma setItemReadState_mem (db : FeedDB) (itemId userId : Nat) (st : ReadState) :
    ReadRow.mk userId itemId st ∈ (setItemReadState db itemId userId st).readStates := by
  unfold setItemReadState
  by_cases h : db.readStates.any (fun r => r.userId == userId && r.itemId == itemId) = true
  · rw [if_pos h]
    obtain ⟨r, hr, hcond⟩ := List.any_eq_true.mp h
    simp only [Bool.and_eq_true, beq_iff_eq] at hcond
    refine List.mem_map.mpr ⟨r, hr, ?_⟩
    rw [if_pos (by simp [hcond.1, hcond.2])]
    cases r
    simp_all
  · rw [if_neg h]
    simp

/-! Structural facts about the admission operations: which parts of the
database each of them can touch. -/

lemma setItemReadState_items (db : FeedDB) (i u : Nat) (st : ReadState) :
    (setItemReadState db i u st).items = db.items ∧
    (setItemReadState db i u st).archiveItems = db.archiveItems ∧
    (setItemReadState db i u st).nextId = db.nextId := by
  unfold setItemReadState
  split <;> simp

lemma map_proj_dbSetItemGUID (l : List DBItem) (id : Nat) (g : String) :
    (l.map fun x => if x.id == id then { x with guid := some g } else x).map
        (fun x => (x.id, x.link, x.pubDate)) =
      l.map (fun x => (x.id, x.link, x.pubDate)) := by
  induction l with
  | nil => rfl
  | cons a t ih =>
    simp only [List.map_cons, ih]
    split <;> simp

lemma fixOldItem_shape {db : FeedDB} {item : Item} {b : Bool} {db1 : FeedDB}
    (h : fixOldItem db item = .ok (b, db1)) :
    db1.nextId = db.nextId ∧ db1.archiveItems = db.archiveItems ∧
    db1.readStates = db.readStates ∧
    db1.items.map (fun x => (x.id, x.link, x.pubDate)) =
      db.items.map (fun x => (x.id, x.link, x.pubDate)) := by
  unfold fixOldItem at h
  cases hf : findItemByLink db item.link with
  | none =>
    rw [hf] at h
    simp only [Except.ok.injEq, Prod.mk.injEq] at h
    rw [← h.2]
    exact ⟨rfl, rfl, rfl, rfl⟩
  | some r =>
    rw [hf] at h
    dsimp only at h
    cases hg : r.guid with
    | none =>
      rw [hg] at h
      simp only [Except.ok.injEq, Prod.mk.injEq] at h
      rw [← h.2]
      exact ⟨rfl, rfl, rfl, map_proj_dbSetItemGUID _ _ _⟩
    | some g =>
      rw [hg] at h
      dsimp only at h
      by_cases hgi : g = item.guid
      · rw [if_pos hgi] at h; cases h
      · rw [if_neg hgi] at h; cases h

lemma shouldRecordItem_shape {feed : DBFeed} {item : Item} {c : Nat} {p : Bool}
    {q : Nat} {db : FeedDB} {b : Bool} {db1 : FeedDB} {logs : List LogEvent}
    (h : shouldRecordItem feed item c p q db = .ok (b, db1, logs)) :
    db1.nextId = db.nextId ∧ db1.archiveItems = db.archiveItems ∧
    db1.readStates = db.readStates ∧
    db1.items.map (fun x => (x.id, x.link, x.pubDate)) =
      db.items.map (fun x => (x.id, x.link, x.pubDate)) := by
  unfold shouldRecordItem at h
  cases hlu : feed.lastUpdateTime with
  | none =>
    rw [hlu] at h
    simp only [Except.ok.injEq, Prod.mk.injEq] at h
    rw [← h.2.1]
    exact ⟨rfl, rfl, rfl, rfl⟩
  | some t =>
    rw [hlu] at h
    by_cases hg : item.guid = ""
    · rw [if_pos hg] at h
      split_ifs at h <;>
        (simp only [Except.ok.injEq, Prod.mk.injEq] at h; rw [← h.2.1];
          exact ⟨rfl, rfl, rfl, rfl⟩)
    · rw [if_neg hg] at h
      by_cases he : feedItemExistsByGUID db item.guid
      · rw [if_pos he] at h
        simp only [Except.ok.injEq, Prod.mk.injEq] at h
        rw [← h.2.1]
        exact ⟨rfl, rfl, rfl, rfl⟩
      · rw [if_neg he] at h
        cases hfix : fixOldItem db item with
        | error e => rw [hfix] at h; cases h
        | ok pair =>
          obtain ⟨found, dbf⟩ := pair
          rw [hfix] at h
          have hs := fixOldItem_shape hfix
          cases found <;>
            (simp only [if_true, if_false, Bool.false_eq_true, Except.ok.injEq,
              Prod.mk.injEq] at h; rw [← h.2.1]; exact hs)

/-- Claim C1 counterexample: a feed that was last polled at time 100 but has
no stored items yet gets cutoff 0, the zero time, not its last-poll
timestamp — refuting the claim that the cutoff "equals the feed's own
last-poll timestamp, never the zero/epoch time" in this case. -/
theorem claim_C1_counterexample :
    getFeedCutoffTime ⟨[], [], [], 0⟩ = 0 ∧
    (DBFeed.mk 1 "f" "http://e/f" 3600 (some 100) false).lastUpdateTime = some 100 ∧
    (0 : Nat) ≠ 100 :=
  ⟨rfl, rfl, by decide⟩

/-- Claim C1 amended: the cutoff timestamp equals the maximum publicationDate
over the feed's currently stored items (main and archive tables
together); for a feed with no stored items it is the zero time,
regardless of the feed's last-poll timestamp (the computation does not
consult the feed row at all). -/
theorem claim_C1_amended (db : FeedDB) :
    (∀ x ∈ db.items ++ db.archiveItems, x.pubDate ≤ getFeedCutoffTime db) ∧
    (db.items ++ db.archiveItems = [] → getFeedCutoffTime db = 0) ∧
    (db.items ++ db.archiveItems ≠ [] →
      ∃ x ∈ db.items ++ db.archiveItems, getFeedCutoffTime db = x.pubDate) := by
  refine ⟨?_, ?_, ?_⟩
  · intro x hx
    exact le_foldr_max (List.mem_map.mpr ⟨x, hx, rfl⟩)
  · intro h
    simp [getFeedCutoffTime, h]
  · intro h
    have hmap : ((db.items ++ db.archiveItems).map (fun x => x.pubDate)) ≠ [] := by
      simpa using h
    obtain ⟨x, hx, hpx⟩ := List.mem_map.mp (foldr_max_mem hmap)
    exact ⟨x, hx, hpx.symm⟩

/-- Claim C1 witness: the cutoff of a database holding one item with
publication date 7 is that item's publication date. -/
theorem claim_C1_witness :
    (FeedDB.mk [⟨0, "t", "d", "L", 7, none⟩] [] [] 1).items ++
        (FeedDB.mk [⟨0, "t", "d", "L", 7, none⟩] [] [] 1).archiveItems ≠ [] ∧
    ∃ x ∈ (FeedDB.mk [⟨0, "t", "d", "L", 7, none⟩] [] [] 1).items ++
        (FeedDB.mk [⟨0, "t", "d", "L", 7, none⟩] [] [] 1).archiveItems,
      getFeedCutoffTime (FeedDB.mk [⟨0, "t", "d", "L", 7, none⟩] [] [] 1) = x.pubDate :=
  ⟨by decide, (claim_C1_amended _).2.2 (by decide)⟩

/-- Claim C4: for a never-polled feed shouldRecordItem answers true for every
item, whatever its guid, the stored links or its publication date, and
recordFeedItem then inserts the item and immediately sets it read for
the default user (user id 1); likewise every insert for an archive-mode
feed is immediately set read for user 1. -/
theorem claim_C4 :
    (∀ (feed : DBFeed) (item : Item) (c : Nat) (p : Bool) (q : Nat) (db : FeedDB),
      feed.lastUpdateTime = none →
      shouldRecordItem feed item c p q db = .ok (true, db, []) ∧
      ∃ db2 logs,
        recordFeedItem feed item c p q db = .ok (true, db2, logs) ∧
        db2.items = db.items ++
          [⟨db.nextId, item.title, item.description, item.link, item.pubDate,
            if item.guid = "" then none else some item.guid⟩] ∧
        ReadRow.mk 1 db.nextId ReadState.read ∈ db2.readStates) ∧
    (∀ (feed : DBFeed) (item : Item) (c : Nat) (p : Bool) (q : Nat) (db : FeedDB)
      (db2 : FeedDB) (logs : List LogEvent),
      feed.archive = true →
      recordFeedItem feed item c p q db = .ok (true, db2, logs) →
      ReadRow.mk 1 db.nextId ReadState.read ∈ db2.readStates) := by
  constructor
  · intro feed item c p q db hlu
    have hshould : shouldRecordItem feed item c p q db = .ok (true, db, []) := by
      unfold shouldRecordItem
      rw [hlu]
    refine ⟨hshould, ?_⟩
    unfold recordFeedItem
    rw [hshould]
    dsimp only
    rw [if_pos (Or.inl hlu)]
    refine ⟨_, _, rfl, ?_, ?_⟩
    · exact (setItemReadState_items _ _ _ _).1
    · exact setItemReadState_mem _ _ _ _
  · intro feed item c p q db db2 logs harch h
    unfold recordFeedItem at h
    cases hs : shouldRecordItem feed item c p q db with
    | error e => rw [hs] at h; cases h
    | ok trip =>
      obtain ⟨b, db1, logs1⟩ := trip
      rw [hs] at h
      cases b with
      | false => dsimp only at h; cases h
      | true =>
        dsimp only at h
        rw [if_pos (Or.inr harch)] at h
        simp only [Except.ok.injEq, Prod.mk.injEq] at h
        have hnext : db1.nextId = db.nextId := (shouldRecordItem_shape hs).1
        rw [← h.2.1, ← hnext]
        exact setItemReadState_mem _ _ _ _

/-- Claim C4 witness: a concrete never-polled feed records a concrete item
and the new row is read for user 1. -/
theorem claim_C4_witness :
    (DBFeed.mk 1 "f" "http://e/f" 3600 none false).lastUpdateTime = none ∧
    shouldRecordItem (DBFeed.mk 1 "f" "http://e/f" 3600 none false)
        ⟨"t", "L", "d", 5, "g"⟩ 9 false 1 ⟨[], [], [], 0⟩ =
      .ok (true, ⟨[], [], [], 0⟩, []) :=
  ⟨rfl,
    (claim_C4.1 (DBFeed.mk 1 "f" "http://e/f" 3600 none false)
      ⟨"t", "L", "d", 5, "g"⟩ 9 false 1 ⟨[], [], [], 0⟩ rfl).1⟩

/-- Claim C5: for a previously polled feed and an item without a guid whose
link matches no stored item, the item is recorded exactly when
ignorePublicationTimes is set or its publication date is at or after
the cutoff; when it is skipped for being older than the cutoff, the
skip log event is emitted whatever the verbosity setting q is. -/
theorem claim_C5 (feed : DBFeed) (t : Nat) (item : Item) (c : Nat) (p : Bool)
    (q : Nat) (db : FeedDB)
    (hlu : feed.lastUpdateTime = some t) (hg : item.guid = "")
    (hl : feedItemExistsByLink db item.link = false) :
    ((p = true ∨ c ≤ item.pubDate) →
      shouldRecordItem feed item c p q db = .ok (true, db, [])) ∧
    (p = false → item.pubDate < c →
      shouldRecordItem feed item c p q db =
        .ok (false, db,
          [LogEvent.skipOld feed.name item.pubDate c item.title item.link])) := by
  unfold shouldRecordItem
  rw [hlu]
  dsimp only
  rw [if_pos hg, if_neg (by rw [hl]; exact Bool.false_ne_true)]
  constructor
  · rintro (rfl | hle)
    · rw [if_pos rfl]
    · rcases p with _ | _
      · rw [if_neg Bool.false_ne_true, if_neg (Nat.not_lt.mpr hle)]
      · rw [if_pos rfl]
  · rintro rfl hlt
    rw [if_neg Bool.false_ne_true, if_pos hlt]

/-- Claim C5 witness: a concrete item older than the cutoff is skipped with
the skip log emitted, here at quiet verbosity 7. -/
theorem claim_C5_witness :
    (DBFeed.mk 1 "f" "http://e/f" 3600 (some 50) false).lastUpdateTime = some 50 ∧
    (Item.mk "t" "X" "d" 30 "").guid = "" ∧
    feedItemExistsByLink ⟨[], [], [], 0⟩ (Item.mk "t" "X" "d" 30 "").link = false ∧
    shouldRecordItem (DBFeed.mk 1 "f" "http://e/f" 3600 (some 50) false)
        (Item.mk "t" "X" "d" 30 "") 40 false 7 ⟨[], [], [], 0⟩ =
      .ok (false, ⟨[], [], [], 0⟩, [LogEvent.skipOld "f" 30 40 "t" "X"]) :=
  ⟨rfl, rfl, rfl,
    (claim_C5 (DBFeed.mk 1 "f" "http://e/f" 3600 (some 50) false) 50
      (Item.mk "t" "X" "d" 30 "") 40 false 7 ⟨[], [], [], 0⟩ rfl rfl rfl).2 rfl
      (by decide)⟩

/-- Claim C2 counterexample: previously polled feed, stored item with link L
and guid g1, incoming item with link L and fresh guid g2.  No stored
item has guid g2 and the link match has a guid recorded, so by the
claim the item should be recorded; the code instead fails the feed's
cycle with a mismatching-GUID error. -/
theorem claim_C2_counterexample :
    shouldRecordItem (DBFeed.mk 1 "f" "http://e/f" 3600 (some 50) false)
        (Item.mk "t2" "L" "d" 60 "g2") 0 false 1
        (FeedDB.mk [⟨0, "t", "d", "L", 10, some "g1"⟩] [] [] 1) =
      .error "mismatching GUID for item" :=
  rfl

/-- Claim C2 amended: for a previously polled feed and an item with a
non-empty guid the decision never consults the cutoff or the
publication-time flag; a stored item with that guid means skip;
otherwise, no stored item with that link means record; a stored item
with that link and no guid recorded gets the guid backfilled and the
item is skipped with no insert; but a stored item with that link and a
different guid recorded makes the feed's cycle fail with an error
instead of recording the item. -/
theorem claim_C2_amended (feed : DBFeed) (t : Nat) (item : Item) (db : FeedDB)
    (c c' : Nat) (p p' : Bool) (q : Nat)
    (hlu : feed.lastUpdateTime = some t) (hg : ¬item.guid = "") :
    (shouldRecordItem feed item c p q db = shouldRecordItem feed item c' p' q db) ∧
    (feedItemExistsByGUID db item.guid = true →
      shouldRecordItem feed item c p q db = .ok (false, db, [])) ∧
    (feedItemExistsByGUID db item.guid = false →
      findItemByLink db item.link = none →
      shouldRecordItem feed item c p q db = .ok (true, db, [])) ∧
    (∀ r, feedItemExistsByGUID db item.guid = false →
      findItemByLink db item.link = some r → r.guid = none →
      shouldRecordItem feed item c p q db =
        .ok (false, dbSetItemGUID db r.id item.guid, [])) ∧
    (∀ r g, feedItemExistsByGUID db item.guid = false →
      findItemByLink db item.link = some r → r.guid = some g → g ≠ item.guid →
      shouldRecordItem feed item c p q db = .error "mismatching GUID for item") := by
  have key : ∀ (c0 : Nat) (p0 : Bool), shouldRecordItem feed item c0 p0 q db =
      (if feedItemExistsByGUID db item.guid = true then .ok (false, db, [])
       else
         match fixOldItem db item with
         | .error e => .error e
         | .ok (found, db1) =>
           if found = true then .ok (false, db1, []) else .ok (true, db1, [])) := by
    intro c0 p0
    unfold shouldRecordItem
    rw [hlu]
    dsimp only
    rw [if_neg hg]
  refine ⟨by rw [key c p, key c' p'], ?_, ?_, ?_, ?_⟩
  · intro he
    rw [key c p, if_pos he]
  · intro he hf
    have hfix : fixOldItem db item = .ok (false, db) := by
      unfold fixOldItem
      rw [hf]
    rw [key c p, if_neg (by rw [he]; exact Bool.false_ne_true), hfix]
    rfl
  · intro r he hf hrg
    have hfix : fixOldItem db item = .ok (true, dbSetItemGUID db r.id item.guid) := by
      unfold fixOldItem
      rw [hf]
      dsimp only
      rw [hrg]
    rw [key c p, if_neg (by rw [he]; exact Bool.false_ne_true), hfix]
    rfl
  · intro r g he hf hrg hne
    have hfix : fixOldItem db item = .error "mismatching GUID for item" := by
      unfold fixOldItem
      rw [hf]
      dsimp only
      rw [hrg]
      dsimp only
      rw [if_neg hne]
    rw [key c p, if_neg (by rw [he]; exact Bool.false_ne_true), hfix]

/-- Claim C2 witness: the guid-backfill branch on a concrete database: the
stored item with the same link and no guid gets guid g2 backfilled and
the incoming item is skipped without an insert. -/
theorem claim_C2_witness :
    (DBFeed.mk 1 "f" "http://e/f" 3600 (some 50) false).lastUpdateTime = some 50 ∧
    ¬(Item.mk "t2" "L" "d" 60 "g2").guid = "" ∧
    shouldRecordItem (DBFeed.mk 1 "f" "http://e/f" 3600 (some 50) false)
        (Item.mk "t2" "L" "d" 60 "g2") 0 false 1
        (FeedDB.mk [⟨0, "t", "d", "L", 10, none⟩] [] [] 1) =
      .ok (false,
        dbSetItemGUID (FeedDB.mk [⟨0, "t", "d", "L", 10, none⟩] [] [] 1) 0 "g2",
        []) :=
  ⟨rfl, by decide,
    (claim_C2_amended (DBFeed.mk 1 "f" "http://e/f" 3600 (some 50) false) 50
        (Item.mk "t2" "L" "d" 60 "g2")
        (FeedDB.mk [⟨0, "t", "d", "L", 10, none⟩] [] [] 1) 0 0 false false 1 rfl
        (by decide)).2.2.2.1 ⟨0, "t", "d", "L", 10, none⟩ rfl rfl rfl⟩

/-- Claim C3 counterexample: a batch holding an item without a link, two
items sharing link L and two items sharing guid G is not rejected: the
cycle succeeds (no error) and two of the items are admitted, not
zero. -/
theorem claim_C3_counterexample :
    (updateFeedItems (DBFeed.mk 1 "f" "http://e/f" 3600 (some 50) false)
        [⟨"t0", "", "d", 60, ""⟩, ⟨"t1", "L", "d", 60, ""⟩, ⟨"t2", "L", "d", 61, ""⟩,
          ⟨"t3", "M", "d", 62, "G"⟩, ⟨"t4", "N", "d", 63, "G"⟩]
        0 false 1 ⟨[], [], [], 0⟩).err = none ∧
    (updateFeedItems (DBFeed.mk 1 "f" "http://e/f" 3600 (some 50) false)
        [⟨"t0", "", "d", 60, ""⟩, ⟨"t1", "L", "d", 60, ""⟩, ⟨"t2", "L", "d", 61, ""⟩,
          ⟨"t3", "M", "d", 62, "G"⟩, ⟨"t4", "N", "d", 63, "G"⟩]
        0 false 1 ⟨[], [], [], 0⟩).recorded = 2 := by
  constructor <;> decide

/-- Claim C3 amended: there is no batch-level sanity rejection.  An item
without a link is logged and skipped individually and the loop carries
on over the remaining items unchanged; duplicated links or guids inside
one batch are left to the ordinary per-item existence checks. -/
theorem claim_C3_amended (feed : DBFeed) (item : Item) (rest : List Item)
    (c : Nat) (p : Bool) (q : Nat) (db : FeedDB) (h : item.link = "") :
    updateFeedItems feed (item :: rest) c p q db =
      ⟨(updateFeedItems feed rest c p q db).db,
       (updateFeedItems feed rest c p q db).recorded,
       LogEvent.blankLink feed.name item.title ::
         (updateFeedItems feed rest c p q db).logs,
       (updateFeedItems feed rest c p q db).err⟩ := by
  conv_lhs => rw [updateFeedItems]
  rw [if_pos h]

/-- Claim C3 witness: a concrete batch headed by a blank-link item reduces to
the loop over the tail plus the blank-link log. -/
theorem claim_C3_witness :
    (Item.mk "t0" "" "d" 60 "").link = "" ∧
    updateFeedItems (DBFeed.mk 1 "f" "http://e/f" 3600 (some 50) false)
        [⟨"t0", "", "d", 60, ""⟩, ⟨"t1", "L", "d", 60, ""⟩] 0 false 1 ⟨[], [], [], 0⟩ =
      ⟨(updateFeedItems (DBFeed.mk 1 "f" "http://e/f" 3600 (some 50) false)
          [⟨"t1", "L", "d", 60, ""⟩] 0 false 1 ⟨[], [], [], 0⟩).db,
       (updateFeedItems (DBFeed.mk 1 "f" "http://e/f" 3600 (some 50) false)
          [⟨"t1", "L", "d", 60, ""⟩] 0 false 1 ⟨[], [], [], 0⟩).recorded,
       LogEvent.blankLink "f" "t0" ::
         (updateFeedItems (DBFeed.mk 1 "f" "http://e/f" 3600 (some 50) false)
          [⟨"t1", "L", "d", 60, ""⟩] 0 false 1 ⟨[], [], [], 0⟩).logs,
       (updateFeedItems (DBFeed.mk 1 "f" "http://e/f" 3600 (some 50) false)
          [⟨"t1", "L", "d", 60, ""⟩] 0 false 1 ⟨[], [], [], 0⟩).err⟩ :=
  ⟨rfl,
    claim_C3_amended (DBFeed.mk 1 "f" "http://e/f" 3600 (some 50) false)
      (Item.mk "t0" "" "d" 60 "") [⟨"t1", "L", "d", 60, ""⟩] 0 false 1
      ⟨[], [], [], 0⟩ rfl⟩

/-- Claim C8 counterexample: two runs whose three dialect parses fail with
different error messages yield the very same ParseFeedXML error, the
fixed message naming the three dialects — so the returned error does
not carry the per-dialect attempt failures. -/
theorem claim_C8_counterexample :
    ParseFeedXML (fun _ => .error "RSS XML decode error: a")
        (fun _ => .error "RDF XML decode error: a")
        (fun _ => .error "Atom XML decode error: a") xmlHeader =
      ParseFeedXML (fun _ => .error "RSS XML decode error: b")
        (fun _ => .error "RDF XML decode error: b")
        (fun _ => .error "Atom XML decode error: b") xmlHeader ∧
    ParseFeedXML (fun _ => .error "RSS XML decode error: a")
        (fun _ => .error "RDF XML decode error: a")
        (fun _ => .error "Atom XML decode error: a") xmlHeader =
      .error "unable to parse as RSS, RDF, or Atom" ∧
    ("RSS XML decode error: a" : String) ≠ "RSS XML decode error: b" :=
  ⟨rfl, rfl, by decide⟩

/-- Claim C8 amended: when the payload passes the XML-header check and all
three dialect parses fail, ParseFeedXML returns the fixed error
"unable to parse as RSS, RDF, or Atom", which is independent of the
three per-dialect failures and carries none of them. -/
theorem claim_C8_amended (pRSS pRDF pAtom : List Char → Except String Channel)
    (data : List Char) (e1 e2 e3 : String)
    (hx : looksLikeXML data = .ok ())
    (h1 : pRSS data = .error e1) (h2 : pRDF data = .error e2)
    (h3 : pAtom data = .error e3) :
    ParseFeedXML pRSS pRDF pAtom data =
      .error "unable to parse as RSS, RDF, or Atom" := by
  unfold ParseFeedXML
  rw [hx]
  dsimp only
  rw [h1]
  dsimp only
  rw [h2]
  dsimp only
  rw [h3]

/-- Claim C8 witness: concrete all-failing parsers on a payload that passes
the header check produce the fixed aggregate error. -/
theorem claim_C8_witness :
    looksLikeXML xmlHeader = .ok () ∧
    ParseFeedXML (fun _ => .error "RSS XML decode error: c")
        (fun _ => .error "RDF XML decode error: c")
        (fun _ => .error "Atom XML decode error: c") xmlHeader =
      .error "unable to parse as RSS, RDF, or Atom" :=
  ⟨by decide,
    claim_C8_amended (fun _ => .error "RSS XML decode error: c")
      (fun _ => .error "RDF XML decode error: c")
      (fun _ => .error "Atom XML decode error: c") xmlHeader
      "RSS XML decode error: c" "RDF XML decode error: c" "Atom XML decode error: c"
      (by decide) rfl rfl rfl⟩

/-- Claim C10: GetItemPubDate is total by construction and, for an empty
publication-date string or one on which the RFC1123, RFC1123Z and
RFC3339 parses all fail, it returns the current time, never an error or
the zero time; consequently such an item's pubDate is at or after any
past cutoff, and an item carrying it with no guid and an unseen link is
recorded, never skipped by the cutoff check. -/
theorem claim_C10 (now : Nat) (p1 p2 p3 : String → Option Nat) (s : String)
    (h : s = "" ∨ (p1 s = none ∧ p2 s = none ∧ p3 s = none)) :
    GetItemPubDate now p1 p2 p3 s = now ∧
    (∀ c ≤ now, ¬(GetItemPubDate now p1 p2 p3 s < c)) ∧
    (∀ (feed : DBFeed) (t : Nat) (item : Item) (c : Nat) (p : Bool) (q : Nat)
      (db : FeedDB),
      feed.lastUpdateTime = some t → item.guid = "" →
      item.pubDate = GetItemPubDate now p1 p2 p3 s →
      feedItemExistsByLink db item.link = false → c ≤ now →
      shouldRecordItem feed item c p q db = .ok (true, db, [])) := by
  have hval : GetItemPubDate now p1 p2 p3 s = now := by
    rcases h with rfl | ⟨h1, h2, h3⟩
    · rfl
    · unfold GetItemPubDate
      rw [h1, h2, h3]
      split <;> rfl
  refine ⟨hval, ?_, ?_⟩
  · intro c hc
    rw [hval]
    exact Nat.not_lt.mpr hc
  · intro feed t item c p q db hlu hg hpd hl hc
    unfold shouldRecordItem
    rw [hlu]
    dsimp only
    rw [if_pos hg, if_neg (by rw [hl]; exact Bool.false_ne_true)]
    have hnl : ¬item.pubDate < c := by
      rw [hpd, hval]
      exact Nat.not_lt.mpr hc
    cases p with
    | false => rw [if_neg Bool.false_ne_true, if_neg hnl]
    | true => rw [if_pos rfl]

/-- Claim C10 witness: with all three parses failing on a concrete string,
the returned pubDate is the current time 5 and is not below the past
cutoff 3. -/
theorem claim_C10_witness :
    ((fun _ : String => (none : Option Nat)) "x" = none ∧
      (fun _ : String => (none : Option Nat)) "x" = none ∧
      (fun _ : String => (none : Option Nat)) "x" = none) ∧
    GetItemPubDate 5 (fun _ => none) (fun _ => none) (fun _ => none) "x" = 5 ∧
    ¬(GetItemPubDate 5 (fun _ => none) (fun _ => none) (fun _ => none) "x" < 3) :=
  ⟨⟨rfl, rfl, rfl⟩,
    (claim_C10 5 (fun _ => none) (fun _ => none) (fun _ => none) "x"
      (Or.inr ⟨rfl, rfl, rfl⟩)).1,
    (claim_C10 5 (fun _ => none) (fun _ => none) (fun _ => none) "x"
      (Or.inr ⟨rfl, rfl, rfl⟩)).2.1 3 (by decide)⟩

lemma updateFeedRun_spec (input : FeedCycleInput) (p : Bool) (q : Nat) (fs : FeedState) :
    (updateFeedRun input p q fs).1.feed = fs.feed ∧
    ((updateFeedRun input p q fs).2 = true ↔
      ∃ payload items, input.fetchResult = .ok payload ∧
        input.storePayloadOk = true ∧ input.parseResult = .ok items ∧
        (updateFeedItems fs.feed items (getFeedCutoffTime fs.db) p q fs.db).err = none) := by
  unfold updateFeedRun
  cases hf : input.fetchResult with
  | error e => simp [hf]
  | ok payload =>
    cases hs : input.storePayloadOk with
    | false => simp [hf, hs]
    | true =>
      cases hp : input.parseResult with
      | error e => simp [hf, hs, hp]
      | ok items =>
        cases herr : (updateFeedItems fs.feed items (getFeedCutoffTime fs.db) p q fs.db).err with
        | none => simp [hf, hs, hp, herr]
        | some e => simp [hf, hs, hp, herr]

/-- Claim C6: the candidate last-poll time of a cycle is the captured
pre-fetch timestamp of the job; the cycle itself never touches the
feed's last-poll time; the cycle fails whenever fetching, storing the
payload, parsing, or recording an item fails, and then the persisted
last-poll time is unchanged; only a fully successful cycle (followed by
a successful recordFeedUpdate) persists the captured timestamp. -/
theorem claim_C6 (j : FeedJob) (ipt p : Bool) (q : Nat)
    (hdue : shouldUpdateFeed j.now j.fs.feed ipt = true) :
    ((updateFeedRun j.input p q j.fs).1.feed.lastUpdateTime =
      j.fs.feed.lastUpdateTime) ∧
    (((∃ e, j.input.fetchResult = .error e) ∨ j.input.storePayloadOk = false ∨
      (∃ e, j.input.parseResult = .error e) ∨
      (∃ items, j.input.parseResult = .ok items ∧
        (updateFeedItems j.fs.feed items (getFeedCutoffTime j.fs.db) p q
          j.fs.db).err ≠ none)) →
      (updateFeedRun j.input p q j.fs).2 = false) ∧
    ((updateFeedRun j.input p q j.fs).2 = false →
      (processFeeds ipt p q [j]).1.map (fun fs => fs.feed.lastUpdateTime) =
        [j.fs.feed.lastUpdateTime]) ∧
    ((updateFeedRun j.input p q j.fs).2 = true → j.recordUpdateOk = true →
      (processFeeds ipt p q [j]).1.map (fun fs => fs.feed.lastUpdateTime) =
        [some j.updateTime]) := by
  obtain ⟨hfeed, hiff⟩ := updateFeedRun_spec j.input p q j.fs
  refine ⟨by rw [hfeed], ?_, ?_, ?_⟩
  · intro hfail
    cases hrun : (updateFeedRun j.input p q j.fs).2 with
    | false => rfl
    | true =>
      exfalso
      obtain ⟨payload, items, hok, hst, hpa, herr⟩ := hiff.mp hrun
      rcases hfail with ⟨e, he⟩ | hsf | ⟨e, he⟩ | ⟨items2, hpa2, herr2⟩
      · rw [hok] at he; cases he
      · rw [hst] at hsf; cases hsf
      · rw [hpa] at he; cases he
      · rw [hpa] at hpa2
        injection hpa2 with hi
        rw [← hi] at herr2
        exact herr2 herr
  · intro hrun
    simp [processFeeds, hdue, hrun, hfeed]
  · intro hrun hrec
    simp [processFeeds, hdue, hrun, hrec]

/-- Claim C6 witness: a concrete due feed whose fetch fails keeps its
last-poll time; concretely the map over the processed run equals the
original value. -/
theorem claim_C6_witness :
    shouldUpdateFeed 10 (DBFeed.mk 1 "f" "http://e/f" 3600 none false) false = true ∧
    (updateFeedRun (FeedCycleInput.mk (.error "HTTP request for feed failed") true
        (.ok [])) false 1
      (FeedState.mk (DBFeed.mk 1 "f" "http://e/f" 3600 none false)
        ⟨[], [], [], 0⟩ none)).2 = false ∧
    (processFeeds false false 1
        [FeedJob.mk
          (FeedState.mk (DBFeed.mk 1 "f" "http://e/f" 3600 none false)
            ⟨[], [], [], 0⟩ none)
          (FeedCycleInput.mk (.error "HTTP request for feed failed") true (.ok []))
          10 99 true]).1.map (fun fs => fs.feed.lastUpdateTime) = [none] :=
  ⟨rfl, by decide,
    (claim_C6
      (FeedJob.mk
        (FeedState.mk (DBFeed.mk 1 "f" "http://e/f" 3600 none false)
          ⟨[], [], [], 0⟩ none)
        (FeedCycleInput.mk (.error "HTTP request for feed failed") true (.ok []))
        10 99 true) false false 1 rfl).2.2.1 (by decide)⟩

/-- Claim C9 counterexample: a run of two due feeds where the first feed's
cycle succeeds but persisting its last-poll time fails.  The run
aborts: the second feed — although its own cycle would have succeeded —
is left untouched, refuting the claim that a failure of any persistence
operation, including setting the last-poll time, lets the run continue
to the next feed. -/
theorem claim_C9_counterexample :
    (processFeeds false false 1
        [FeedJob.mk
          (FeedState.mk (DBFeed.mk 1 "a" "http://e/a" 3600 none false)
            ⟨[], [], [], 0⟩ none)
          (FeedCycleInput.mk (.ok [1]) true (.ok [⟨"t", "X", "d", 30, ""⟩]))
          10 99 false,
         FeedJob.mk
          (FeedState.mk (DBFeed.mk 2 "b" "http://e/b" 3600 none false)
            ⟨[], [], [], 0⟩ none)
          (FeedCycleInput.mk (.ok [1]) true (.ok [⟨"t", "Y", "d", 30, ""⟩]))
          10 99 true]).2 = true ∧
    (processFeeds false false 1
        [FeedJob.mk
          (FeedState.mk (DBFeed.mk 1 "a" "http://e/a" 3600 none false)
            ⟨[], [], [], 0⟩ none)
          (FeedCycleInput.mk (.ok [1]) true (.ok [⟨"t", "X", "d", 30, ""⟩]))
          10 99 false,
         FeedJob.mk
          (FeedState.mk (DBFeed.mk 2 "b" "http://e/b" 3600 none false)
            ⟨[], [], [], 0⟩ none)
          (FeedCycleInput.mk (.ok [1]) true (.ok [⟨"t", "Y", "d", 30, ""⟩]))
          10 99 true]).1.map (fun fs => fs.db.items.length) = [1, 0] ∧
    (updateFeedRun (FeedCycleInput.mk (.ok [1]) true (.ok [⟨"t", "Y", "d", 30, ""⟩]))
        false 1
        (FeedState.mk (DBFeed.mk 2 "b" "http://e/b" 3600 none false)
          ⟨[], [], [], 0⟩ none)).2 = true := by
  refine ⟨by decide, by decide, by decide⟩

/-- Claim C9 amended: a fetch, payload-store, parse or per-item persistence
failure terminates only that feed's cycle, leaves its last-poll time
unchanged, and the run continues with the remaining feeds; but a
failure of the persistence operation that sets the feed's last-poll
time aborts the entire run, leaving the remaining feeds unprocessed. -/
theorem claim_C9_amended (ipt p : Bool) (q : Nat) (j : FeedJob) (rest : List FeedJob)
    (hdue : shouldUpdateFeed j.now j.fs.feed ipt = true) :
    ((updateFeedRun j.input p q j.fs).2 = false →
      processFeeds ipt p q (j :: rest) =
        ((updateFeedRun j.input p q j.fs).1 :: (processFeeds ipt p q rest).1,
          (processFeeds ipt p q rest).2) ∧
      (updateFeedRun j.input p q j.fs).1.feed.lastUpdateTime =
        j.fs.feed.lastUpdateTime) ∧
    ((updateFeedRun j.input p q j.fs).2 = true → j.recordUpdateOk = false →
      processFeeds ipt p q (j :: rest) =
        ((updateFeedRun j.input p q j.fs).1 :: rest.map (fun k => k.fs), true)) := by
  obtain ⟨hfeed, _⟩ := updateFeedRun_spec j.input p q j.fs
  constructor
  · intro hrun
    constructor
    · simp [processFeeds, hdue, hrun]
    · rw [hfeed]
  · intro hrun hrec
    simp [processFeeds, hdue, hrun, hrec]

/-- Claim C9 amended witness: a concrete due feed with a failing fetch is
skipped and the run continues over the (empty) remainder. -/
theorem claim_C9_witness :
    shouldUpdateFeed 10 (DBFeed.mk 1 "f" "http://e/f" 3600 none false) false = true ∧
    (updateFeedRun (FeedCycleInput.mk (.error "timeout") true (.ok [])) false 1
      (FeedState.mk (DBFeed.mk 1 "f" "http://e/f" 3600 none false)
        ⟨[], [], [], 0⟩ none)).2 = false ∧
    processFeeds false false 1
        [FeedJob.mk
          (FeedState.mk (DBFeed.mk 1 "f" "http://e/f" 3600 none false)
            ⟨[], [], [], 0⟩ none)
          (FeedCycleInput.mk (.error "timeout") true (.ok [])) 10 99 true] =
      ((updateFeedRun (FeedCycleInput.mk (.error "timeout") true (.ok [])) false 1
          (FeedState.mk (DBFeed.mk 1 "f" "http://e/f" 3600 none false)
            ⟨[], [], [], 0⟩ none)).1 :: (processFeeds false false 1 []).1,
        (processFeeds false false 1 []).2) :=
  ⟨rfl, by decide,
    ((claim_C9_amended false false 1
      (FeedJob.mk
        (FeedState.mk (DBFeed.mk 1 "f" "http://e/f" 3600 none false)
          ⟨[], [], [], 0⟩ none)
        (FeedCycleInput.mk (.error "timeout") true (.ok [])) 10 99 true) [] rfl).1
      (by decide)).1⟩

/-! Machinery for the idempotence property: after a successful run,
every item of the payload is settled — a second run over the same
payload will skip it. -/

/-- An item is settled in a database state: the item loop with cutoff c
and publication-time flag p will not insert it. -/
def settled (db : FeedDB) (c : Nat) (p : Bool) (item : Item) : Prop :=
  item.link = "" ∨
  (¬item.guid = "" ∧ feedItemExistsByGUID db item.guid = true) ∨
  (item.guid = "" ∧ (feedItemExistsByLink db item.link = true ∨
    (p = false ∧ item.pubDate < c)))

lemma settled_mono {db db1 : FeedDB} {c : Nat} {p : Bool} {item : Item}
    (hg : ∀ g, feedItemExistsByGUID db g = true → feedItemExistsByGUID db1 g = true)
    (hl : ∀ l, feedItemExistsByLink db l = true → feedItemExistsByLink db1 l = true)
    (h : settled db c p item) : settled db1 c p item := by
  rcases h with h | ⟨hne, hgid⟩ | ⟨hgd, hrest⟩
  · exact Or.inl h
  · exact Or.inr (Or.inl ⟨hne, hg _ hgid⟩)
  · rcases hrest with hlk | hdate
    · exact Or.inr (Or.inr ⟨hgd, Or.inl (hl _ hlk)⟩)
    · exact Or.inr (Or.inr ⟨hgd, Or.inr hdate⟩)

lemma settled_mono_cutoff {db : FeedDB} {c c' : Nat} {p : Bool} {item : Item}
    (hcc : c ≤ c') (h : settled db c p item) : settled db c' p item := by
  rcases h with h | h | ⟨hgd, hrest⟩
  · exact Or.inl h
  · exact Or.inr (Or.inl h)
  · rcases hrest with hlk | ⟨hp, hlt⟩
    · exact Or.inr (Or.inr ⟨hgd, Or.inl hlk⟩)
    · exact Or.inr (Or.inr ⟨hgd, Or.inr ⟨hp, lt_of_lt_of_le hlt hcc⟩⟩)

lemma map_proj_link {l1 l2 : List DBItem}
    (h : l1.map (fun x => (x.id, x.link, x.pubDate)) =
      l2.map (fun x => (x.id, x.link, x.pubDate))) :
    l1.map (fun x => x.link) = l2.map (fun x => x.link) := by
  have h2 := congrArg (List.map (fun t : Nat × String × Nat => t.2.1)) h
  simpa [List.map_map, Function.comp] using h2

lemma map_proj_id {l1 l2 : List DBItem}
    (h : l1.map (fun x => (x.id, x.link, x.pubDate)) =
      l2.map (fun x => (x.id, x.link, x.pubDate))) :
    l1.map (fun x => x.id) = l2.map (fun x => x.id) := by
  have h2 := congrArg (List.map (fun t : Nat × String × Nat => t.1)) h
  simpa [List.map_map, Function.comp] using h2

lemma map_proj_linkpub {l1 l2 : List DBItem}
    (h : l1.map (fun x => (x.id, x.link, x.pubDate)) =
      l2.map (fun x => (x.id, x.link, x.pubDate))) :
    l1.map (fun x => (x.link, x.pubDate)) = l2.map (fun x => (x.link, x.pubDate)) := by
  have h2 := congrArg (List.map (fun t : Nat × String × Nat => t.2)) h
  simpa [List.map_map, Function.comp] using h2

lemma any_map_general {α β : Type} (l : List α) (f : α → β) (p : β → Bool) :
    (l.map f).any p = l.any (fun a => p (f a)) := by
  induction l with
  | nil => rfl
  | cons a t ih => simp [ih]

lemma any_link_eq {l1 l2 : List DBItem}
    (h : l1.map (fun x => x.link) = l2.map (fun x => x.link)) (s : String) :
    l1.any (fun x => x.link == s) = l2.any (fun x => x.link == s) := by
  have h1 : (l1.map fun x => x.link).any (fun y => y == s) =
      (l2.map fun x => x.link).any (fun y => y == s) := by rw [h]
  rw [any_map_general, any_map_general] at h1
  exact h1

lemma WF_of_proj {db db1 : FeedDB}
    (hproj : db1.items.map (fun x => (x.id, x.link, x.pubDate)) =
      db.items.map (fun x => (x.id, x.link, x.pubDate)))
    (hnext : db1.nextId = db.nextId) (hwf : WF db) : WF db1 := by
  obtain ⟨hnd, hbd⟩ := hwf
  constructor
  · rw [map_proj_id hproj]
    exact hnd
  · intro x hx
    have hxid : x.id ∈ db1.items.map (fun x => x.id) := List.mem_map.mpr ⟨x, hx, rfl⟩
    rw [map_proj_id hproj] at hxid
    obtain ⟨y, hy, hyx⟩ := List.mem_map.mp hxid
    rw [hnext, ← hyx]
    exact hbd y hy

lemma dbSetItemGUID_guid_mono {db : FeedDB} {r : DBItem} (hwf : WF db)
    (hr : r ∈ db.items) (hrg : r.guid = none) (g' : String) :
    ∀ g, feedItemExistsByGUID db g = true →
      feedItemExistsByGUID (dbSetItemGUID db r.id g') g = true := by
  intro g hg
  unfold feedItemExistsByGUID at hg ⊢
  unfold dbSetItemGUID
  rcases Bool.or_eq_true_iff.mp hg with hmain | harch
  · obtain ⟨x, hx, hxg⟩ := List.any_eq_true.mp hmain
    have hne : x.id ≠ r.id := by
      intro hid
      have hxr : x = r := List.inj_on_of_nodup_map hwf.1 hx hr hid
      rw [hxr, hrg] at hxg
      simp at hxg
    apply Bool.or_eq_true_iff.mpr
    left
    apply List.any_eq_true.mpr
    refine ⟨if x.id == r.id then { x with guid := some g' } else x,
      List.mem_map.mpr ⟨x, hx, rfl⟩, ?_⟩
    rw [if_neg (by simpa using hne)]
    exact hxg
  · apply Bool.or_eq_true_iff.mpr
    right
    exact harch

lemma fixOldItem_guid_mono {db : FeedDB} {item : Item} {b : Bool} {db1 : FeedDB}
    (hwf : WF db) (h : fixOldItem db item = .ok (b, db1)) :
    ∀ g, feedItemExistsByGUID db g = true → feedItemExistsByGUID db1 g = true := by
  unfold fixOldItem at h
  cases hf : findItemByLink db item.link with
  | none =>
    rw [hf] at h
    simp only [Except.ok.injEq, Prod.mk.injEq] at h
    rw [← h.2]
    exact fun g hg => hg
  | some r =>
    rw [hf] at h
    dsimp only at h
    cases hg : r.guid with
    | none =>
      rw [hg] at h
      simp only [Except.ok.injEq, Prod.mk.injEq] at h
      rw [← h.2]
      exact dbSetItemGUID_guid_mono hwf (List.mem_of_find?_eq_some hf) hg item.guid
    | some g0 =>
      rw [hg] at h
      dsimp only at h
      by_cases hgi : g0 = item.guid
      · rw [if_pos hgi] at h; cases h
      · rw [if_neg hgi] at h; cases h

lemma existsByLink_eq_of_proj {db db1 : FeedDB}
    (harch : db1.archiveItems = db.archiveItems)
    (hproj : db1.items.map (fun x => x.link) = db.items.map (fun x => x.link)) :
    ∀ l, feedItemExistsByLink db1 l = feedItemExistsByLink db l := by
  intro l
  unfold feedItemExistsByLink
  rw [any_link_eq hproj, harch]

lemma existsByGUID_fields {db db1 : FeedDB} {row : DBItem}
    (hit : db1.items = db.items ++ [row])
    (harch : db1.archiveItems = db.archiveItems) (g : String)
    (h : feedItemExistsByGUID db g = true) :
    feedItemExistsByGUID db1 g = true := by
  unfold feedItemExistsByGUID at h ⊢
  rw [hit, harch, List.any_append]
  rcases Bool.or_eq_true_iff.mp h with hm | ha
  · exact Bool.or_eq_true_iff.mpr (Or.inl (Bool.or_eq_true_iff.mpr (Or.inl hm)))
  · exact Bool.or_eq_true_iff.mpr (Or.inr ha)

lemma existsByLink_fields {db db1 : FeedDB} {row : DBItem}
    (hit : db1.items = db.items ++ [row])
    (harch : db1.archiveItems = db.archiveItems) (l : String)
    (h : feedItemExistsByLink db l = true) :
    feedItemExistsByLink db1 l = true := by
  unfold feedItemExistsByLink at h ⊢
  rw [hit, harch, List.any_append]
  rcases Bool.or_eq_true_iff.mp h with hm | ha
  · exact Bool.or_eq_true_iff.mpr (Or.inl (Bool.or_eq_true_iff.mpr (Or.inl hm)))
  · exact Bool.or_eq_true_iff.mpr (Or.inr ha)

lemma existsByGUID_row_fields {db db1 : FeedDB} {row : DBItem} {g : String}
    (hit : db1.items = db.items ++ [row]) (hg : row.guid = some g) :
    feedItemExistsByGUID db1 g = true := by
  unfold feedItemExistsByGUID
  rw [hit]
  apply Bool.or_eq_true_iff.mpr
  left
  apply List.any_eq_true.mpr
  exact ⟨row, List.mem_append_right _ (List.mem_singleton_self _), by simp [hg]⟩

lemma existsByLink_row_fields {db db1 : FeedDB} {row : DBItem} {l : String}
    (hit : db1.items = db.items ++ [row]) (hl : row.link = l) :
    feedItemExistsByLink db1 l = true := by
  unfold feedItemExistsByLink
  rw [hit]
  apply Bool.or_eq_true_iff.mpr
  left
  apply List.any_eq_true.mpr
  exact ⟨row, List.mem_append_right _ (List.mem_singleton_self _), by simp [hl]⟩

lemma fixOldItem_found_guid {db : FeedDB} {item : Item} {db1 : FeedDB}
    (h : fixOldItem db item = .ok (true, db1)) :
    feedItemExistsByGUID db1 item.guid = true := by
  unfold fixOldItem at h
  cases hf : findItemByLink db item.link with
  | none =>
    rw [hf] at h
    simp only [Except.ok.injEq, Prod.mk.injEq] at h
    cases h.1
  | some r =>
    rw [hf] at h
    dsimp only at h
    cases hg : r.guid with
    | none =>
      rw [hg] at h
      simp only [Except.ok.injEq, Prod.mk.injEq] at h
      rw [← h.2]
      unfold feedItemExistsByGUID dbSetItemGUID
      dsimp only
      apply Bool.or_eq_true_iff.mpr
      left
      apply List.any_eq_true.mpr
      refine ⟨{ r with guid := some item.guid },
        List.mem_map.mpr ⟨r, List.mem_of_find?_eq_some hf, by rw [if_pos (by simp)]⟩,
        by simp⟩
    | some g0 =>
      rw [hg] at h
      dsimp only at h
      by_cases hgi : g0 = item.guid
      · rw [if_pos hgi] at h; cases h
      · rw [if_neg hgi] at h; cases h

lemma shouldRecordItem_guid_mono {feed : DBFeed} {item : Item} {c : Nat} {p : Bool}
    {q : Nat} {db : FeedDB} {b : Bool} {db1 : FeedDB} {logs : List LogEvent}
    (hwf : WF db)
    (h : shouldRecordItem feed item c p q db = .ok (b, db1, logs)) :
    ∀ g, feedItemExistsByGUID db g = true → feedItemExistsByGUID db1 g = true := by
  unfold shouldRecordItem at h
  cases hlu : feed.lastUpdateTime with
  | none =>
    rw [hlu] at h
    simp only [Except.ok.injEq, Prod.mk.injEq] at h
    rw [← h.2.1]
    exact fun g hg => hg
  | some t =>
    rw [hlu] at h
    by_cases hg : item.guid = ""
    · rw [if_pos hg] at h
      split_ifs at h <;>
        (simp only [Except.ok.injEq, Prod.mk.injEq] at h; rw [← h.2.1];
          exact fun g hg => hg)
    · rw [if_neg hg] at h
      by_cases he : feedItemExistsByGUID db item.guid = true
      · rw [if_pos he] at h
        simp only [Except.ok.injEq, Prod.mk.injEq] at h
        rw [← h.2.1]
        exact fun g hg => hg
      · rw [if_neg he] at h
        cases hfix : fixOldItem db item with
        | error e => rw [hfix] at h; cases h
        | ok pair =>
          obtain ⟨found, dbf⟩ := pair
          rw [hfix] at h
          have hm := fixOldItem_guid_mono hwf hfix
          cases found <;>
            (simp only [if_true, if_false, Bool.false_eq_true, Except.ok.injEq,
              Prod.mk.injEq] at h; rw [← h.2.1]; exact hm)

lemma shouldRecordItem_false_settled {feed : DBFeed} {item : Item} {c : Nat}
    {p : Bool} {q : Nat} {db : FeedDB} {db1 : FeedDB} {logs : List LogEvent}
    (h : shouldRecordItem feed item c p q db = .ok (false, db1, logs)) :
    settled db1 c p item := by
  unfold shouldRecordItem at h
  cases hlu : feed.lastUpdateTime with
  | none =>
    rw [hlu] at h
    simp only [Except.ok.injEq, Prod.mk.injEq] at h
    cases h.1
  | some t =>
    rw [hlu] at h
    by_cases hg : item.guid = ""
    · rw [if_pos hg] at h
      by_cases hl : feedItemExistsByLink db item.link = true
      · rw [if_pos hl] at h
        simp only [Except.ok.injEq, Prod.mk.injEq] at h
        rw [← h.2.1]
        exact Or.inr (Or.inr ⟨hg, Or.inl hl⟩)
      · rw [if_neg hl] at h
        cases hp : p with
        | true =>
          rw [hp, if_pos rfl] at h
          simp only [Except.ok.injEq, Prod.mk.injEq] at h
          cases h.1
        | false =>
          rw [hp, if_neg Bool.false_ne_true] at h
          by_cases hd : item.pubDate < c
          · rw [if_pos hd] at h
            simp only [Except.ok.injEq, Prod.mk.injEq] at h
            rw [← h.2.1]
            exact Or.inr (Or.inr ⟨hg, Or.inr ⟨rfl, hd⟩⟩)
          · rw [if_neg hd] at h
            simp only [Except.ok.injEq, Prod.mk.injEq] at h
            cases h.1
    · rw [if_neg hg] at h
      by_cases he : feedItemExistsByGUID db item.guid = true
      · rw [if_pos he] at h
        simp only [Except.ok.injEq, Prod.mk.injEq] at h
        rw [← h.2.1]
        exact Or.inr (Or.inl ⟨hg, he⟩)
      · rw [if_neg he] at h
        cases hfix : fixOldItem db item with
        | error e => rw [hfix] at h; cases h
        | ok pair =>
          obtain ⟨found, dbf⟩ := pair
          rw [hfix] at h
          cases found with
          | false =>
            simp only [Bool.false_eq_true, if_false, Except.ok.injEq,
              Prod.mk.injEq] at h
            cases h.1
          | true =>
            simp only [if_true, Except.ok.injEq, Prod.mk.injEq] at h
            rw [← h.2.1]
            exact Or.inr (Or.inl ⟨hg, fixOldItem_found_guid hfix⟩)

/-- One successful recordFeedItem call, on a well-formed database and a
non-blank link: well-formedness is preserved, the archive table is
untouched, the (link, pubDate) projection of the main table is only
extended, every guid and link existence fact is preserved, and the
processed item ends up settled. -/
lemma recordFeedItem_step {feed : DBFeed} {item : Item} {c : Nat} {p : Bool}
    {q : Nat} {db : FeedDB} {rec : Bool} {db1 : FeedDB} {logs : List LogEvent}
    (hwf : WF db)
    (h : recordFeedItem feed item c p q db = .ok (rec, db1, logs)) :
    WF db1 ∧ db1.archiveItems = db.archiveItems ∧
    (∃ ext, db1.items.map (fun x => (x.link, x.pubDate)) =
      db.items.map (fun x => (x.link, x.pubDate)) ++ ext) ∧
    (∀ g, feedItemExistsByGUID db g = true → feedItemExistsByGUID db1 g = true) ∧
    (∀ l, feedItemExistsByLink db l = true → feedItemExistsByLink db1 l = true) ∧
    settled db1 c p item := by
  unfold recordFeedItem at h
  cases hs : shouldRecordItem feed item c p q db with
  | error e => rw [hs] at h; cases h
  | ok trip =>
    obtain ⟨b, dbS, logsS⟩ := trip
    rw [hs] at h
    obtain ⟨hnextS, harchS, hreadS, hprojS⟩ := shouldRecordItem_shape hs
    have hgmono := shouldRecordItem_guid_mono hwf hs
    have hwfS : WF dbS := WF_of_proj hprojS hnextS hwf
    have hlmono : ∀ l, feedItemExistsByLink db l = true →
        feedItemExistsByLink dbS l = true := by
      intro l hl
      rw [existsByLink_eq_of_proj harchS (map_proj_link hprojS)]
      exact hl
    cases b with
    | false =>
      dsimp only at h
      simp only [Except.ok.injEq, Prod.mk.injEq] at h
      obtain ⟨hb, hdb1, hlogs⟩ := h
      subst hdb1
      exact ⟨hwfS, harchS,
        ⟨[], by rw [map_proj_linkpub hprojS, List.append_nil]⟩,
        hgmono, hlmono, shouldRecordItem_false_settled hs⟩
    | true =>
      dsimp only at h
      simp only [Except.ok.injEq, Prod.mk.injEq] at h
      obtain ⟨hb, hdb1, hlogs⟩ := h
      have hfields : db1.items = dbS.items ++ [insertedRow item dbS.nextId] ∧
          db1.archiveItems = dbS.archiveItems ∧ db1.nextId = dbS.nextId + 1 := by
        rw [← hdb1]
        split
        · exact ⟨(setItemReadState_items _ _ _ _).1,
            (setItemReadState_items _ _ _ _).2.1,
            (setItemReadState_items _ _ _ _).2.2⟩
        · exact ⟨rfl, rfl, rfl⟩
      obtain ⟨hit1, harch1, hnext1⟩ := hfields
      have hnd1 : (db1.items.map (fun x => x.id)).Nodup := by
        rw [hit1, List.map_append]
        refine List.Nodup.append hwfS.1 (List.nodup_singleton _) ?_
        intro a ha hb2
        have hlt : a < dbS.nextId := by
          obtain ⟨y, hy, hyx⟩ := List.mem_map.mp ha
          rw [← hyx]
          exact hwfS.2 y hy
        have : a = dbS.nextId := by simpa [insertedRow] using hb2
        rw [this] at hlt
        exact Nat.lt_irrefl _ hlt
      have hbd1 : ∀ x ∈ db1.items, x.id < db1.nextId := by
        intro x hx
        rw [hit1] at hx
        rw [hnext1]
        rcases List.mem_append.mp hx with hold | hnew
        · exact Nat.lt_trans (hwfS.2 x hold) (Nat.lt_succ_self _)
        · have : x = insertedRow item dbS.nextId := by simpa using hnew
          rw [this]
          exact Nat.lt_succ_self _
      refine ⟨⟨hnd1, hbd1⟩, harch1.trans harchS,
        ⟨[(item.link, item.pubDate)], ?_⟩, ?_, ?_, ?_⟩
      · rw [hit1, List.map_append, map_proj_linkpub hprojS]
        rfl
      · intro g hg
        exact existsByGUID_fields hit1 harch1 g (hgmono g hg)
      · intro l hl
        exact existsByLink_fields hit1 harch1 l (hlmono l hl)
      · by_cases hgd : item.guid = ""
        · exact Or.inr (Or.inr ⟨hgd, Or.inl (existsByLink_row_fields hit1 rfl)⟩)
        · exact Or.inr (Or.inl ⟨hgd,
            existsByGUID_row_fields hit1 (by simp [insertedRow, if_neg hgd])⟩)

lemma getFeedCutoffTime_mono {db db1 : FeedDB}
    (harch : db1.archiveItems = db.archiveItems)
    (hext : ∃ ext, db1.items.map (fun x => (x.link, x.pubDate)) =
      db.items.map (fun x => (x.link, x.pubDate)) ++ ext) :
    getFeedCutoffTime db ≤ getFeedCutoffTime db1 := by
  obtain ⟨ext, hx⟩ := hext
  have hpub : db1.items.map (fun x => x.pubDate) =
      db.items.map (fun x => x.pubDate) ++ ext.map (fun t => t.2) := by
    have h2 := congrArg (List.map (fun t : String × Nat => t.2)) hx
    simpa [List.map_map, Function.comp] using h2
  unfold getFeedCutoffTime
  rw [List.map_append, List.map_append, foldr_max_append, foldr_max_append, harch]
  refine max_le_max ?_ (le_refl _)
  rw [hpub, foldr_max_append]
  exact Nat.le_max_left _ _

/-- After a run of the item loop that hit no error, starting from a
well-formed database: well-formedness holds, the archive table is
untouched, the (link, pubDate) projection of the main table has only
been extended, all guid and link existence facts are preserved, and
every item of the processed batch is settled. -/
lemma updateFeedItems_establish (feed : DBFeed) (c : Nat) (p : Bool) (q : Nat) :
    ∀ (items : List Item) (db : FeedDB), WF db →
      (updateFeedItems feed items c p q db).err = none →
      WF (updateFeedItems feed items c p q db).db ∧
      (updateFeedItems feed items c p q db).db.archiveItems = db.archiveItems ∧
      (∃ ext, (updateFeedItems feed items c p q db).db.items.map
          (fun x => (x.link, x.pubDate)) =
        db.items.map (fun x => (x.link, x.pubDate)) ++ ext) ∧
      (∀ g, feedItemExistsByGUID db g = true →
        feedItemExistsByGUID (updateFeedItems feed items c p q db).db g = true) ∧
      (∀ l, feedItemExistsByLink db l = true →
        feedItemExistsByLink (updateFeedItems feed items c p q db).db l = true) ∧
      (∀ i ∈ items, settled (updateFeedItems feed items c p q db).db c p i) := by
  intro items
  induction items with
  | nil =>
    intro db hwf _
    have heq : updateFeedItems feed [] c p q db = ⟨db, 0, [], none⟩ := by
      rw [updateFeedItems]
    rw [heq]
    exact ⟨hwf, rfl, ⟨[], by simp⟩, fun g hg => hg, fun l hl => hl,
      by intro i hi; cases hi⟩
  | cons item rest ih =>
    intro db hwf herr
    by_cases hbl : item.link = ""
    · have heq : updateFeedItems feed (item :: rest) c p q db =
          ⟨(updateFeedItems feed rest c p q db).db,
           (updateFeedItems feed rest c p q db).recorded,
           LogEvent.blankLink feed.name item.title ::
             (updateFeedItems feed rest c p q db).logs,
           (updateFeedItems feed rest c p q db).err⟩ := by
        conv_lhs => rw [updateFeedItems]
        rw [if_pos hbl]
      rw [heq] at herr ⊢
      dsimp only at herr ⊢
      obtain ⟨h1, h2, h3, h4, h5, h6⟩ := ih db hwf herr
      refine ⟨h1, h2, h3, h4, h5, ?_⟩
      intro i hi
      rcases List.mem_cons.mp hi with rfl | hmem
      · exact Or.inl hbl
      · exact h6 i hmem
    · cases hrec : recordFeedItem feed item c p q db with
      | error e =>
        have heq : updateFeedItems feed (item :: rest) c p q db =
            ⟨db, 0, [], some e⟩ := by
          conv_lhs => rw [updateFeedItems]
          rw [if_neg hbl, hrec]
        rw [heq] at herr
        cases herr
      | ok trip =>
        obtain ⟨rec, db1, logs1⟩ := trip
        have heq : updateFeedItems feed (item :: rest) c p q db =
            ⟨(updateFeedItems feed rest c p q db1).db,
             (if rec then 1 else 0) + (updateFeedItems feed rest c p q db1).recorded,
             logs1 ++ (updateFeedItems feed rest c p q db1).logs,
             (updateFeedItems feed rest c p q db1).err⟩ := by
          conv_lhs => rw [updateFeedItems]
          rw [if_neg hbl, hrec]
        rw [heq] at herr ⊢
        dsimp only at herr ⊢
        obtain ⟨hwf1, harch1, hext1, hg1, hl1, hset1⟩ := recordFeedItem_step hwf hrec
        obtain ⟨h1, h2, h3, h4, h5, h6⟩ := ih db1 hwf1 herr
        refine ⟨h1, h2.trans harch1, ?_, ?_, ?_, ?_⟩
        · obtain ⟨e1, he1⟩ := hext1
          obtain ⟨e2, he2⟩ := h3
          exact ⟨e1 ++ e2, by rw [he2, he1, List.append_assoc]⟩
        · intro g hg
          exact h4 g (hg1 g hg)
        · intro l hl
          exact h5 l (hl1 l hl)
        · intro i hi
          rcases List.mem_cons.mp hi with rfl | hmem
          · exact settled_mono h4 h5 hset1
          · exact h6 i hmem

/-- The item loop over a batch whose items are all settled, on a feed
with a last poll time present, changes nothing: no insert, no backfill,
no error. -/
lemma updateFeedItems_noop (feed : DBFeed) (t0 : Nat) (c : Nat) (p : Bool) (q : Nat)
    (hlu : feed.lastUpdateTime = some t0) :
    ∀ (items : List Item) (db : FeedDB),
      (∀ i ∈ items, settled db c p i) →
      (updateFeedItems feed items c p q db).db = db ∧
      (updateFeedItems feed items c p q db).recorded = 0 ∧
      (updateFeedItems feed items c p q db).err = none := by
  intro items
  induction items with
  | nil =>
    intro db _
    have heq : updateFeedItems feed [] c p q db = ⟨db, 0, [], none⟩ := by
      rw [updateFeedItems]
    rw [heq]
    exact ⟨rfl, rfl, rfl⟩
  | cons item rest ih =>
    intro db hall
    have hrest : ∀ i ∈ rest, settled db c p i :=
      fun i hi => hall i (List.mem_cons_of_mem _ hi)
    by_cases hbl : item.link = ""
    · have heq : updateFeedItems feed (item :: rest) c p q db =
          ⟨(updateFeedItems feed rest c p q db).db,
           (updateFeedItems feed rest c p q db).recorded,
           LogEvent.blankLink feed.name item.title ::
             (updateFeedItems feed rest c p q db).logs,
           (updateFeedItems feed rest c p q db).err⟩ := by
        conv_lhs => rw [updateFeedItems]
        rw [if_pos hbl]
      rw [heq]
      dsimp only
      exact ih db hrest
    · have hskip : ∃ logs0, recordFeedItem feed item c p q db = .ok (false, db, logs0) := by
        rcases hall item (List.mem_cons_self _ _) with hbl2 | ⟨hgne, hge⟩ | ⟨hgd, hlinkOr⟩
        · exact absurd hbl2 hbl
        · refine ⟨[], ?_⟩
          have hshould : shouldRecordItem feed item c p q db = .ok (false, db, []) := by
            unfold shouldRecordItem
            rw [hlu]
            dsimp only
            rw [if_neg hgne, if_pos hge]
          unfold recordFeedItem
          rw [hshould]
        · by_cases hlk : feedItemExistsByLink db item.link = true
          · refine ⟨[], ?_⟩
            have hshould : shouldRecordItem feed item c p q db = .ok (false, db, []) := by
              unfold shouldRecordItem
              rw [hlu]
              dsimp only
              rw [if_pos hgd, if_pos hlk]
            unfold recordFeedItem
            rw [hshould]
          · rcases hlinkOr with hlk2 | ⟨hp, hlt⟩
            · exact absurd hlk2 hlk
            · refine ⟨[LogEvent.skipOld feed.name item.pubDate c item.title item.link], ?_⟩
              have hshould : shouldRecordItem feed item c p q db =
                  .ok (false, db,
                    [LogEvent.skipOld feed.name item.pubDate c item.title item.link]) := by
                unfold shouldRecordItem
                rw [hlu]
                dsimp only
                rw [if_pos hgd, if_neg hlk, hp, if_neg Bool.false_ne_true, if_pos hlt]
              unfold recordFeedItem
              rw [hshould]
      obtain ⟨logs0, hrec⟩ := hskip
      have heq : updateFeedItems feed (item :: rest) c p q db =
          ⟨(updateFeedItems feed rest c p q db).db,
           (if false then 1 else 0) + (updateFeedItems feed rest c p q db).recorded,
           logs0 ++ (updateFeedItems feed rest c p q db).logs,
           (updateFeedItems feed rest c p q db).err⟩ := by
        conv_lhs => rw [updateFeedItems]
        rw [if_neg hbl, hrec]
      rw [heq]
      dsimp only
      obtain ⟨h1, h2, h3⟩ := ih db hrest
      exact ⟨h1, by simp [h2], h3⟩

/-- Claim C7: processing the same payload twice against the same feed — where
the second run starts from the database state of the first run, uses
the cutoff recomputed from that state and the last poll time recorded
by the first run — inserts nothing on the second run: the database is
unchanged, zero items are recorded and no error occurs.  The
hypotheses are that the serial ids of the starting database are
well-formed and that the first run finished without an error (which is
what lets the first run record its new last poll time at all). -/
theorem claim_C7 (feed : DBFeed) (db0 : FeedDB) (items : List Item) (p : Bool)
    (q : Nat) (pollTime : Nat) (hwf : WF db0)
    (h1 : (updateFeedItems feed items (getFeedCutoffTime db0) p q db0).err = none) :
    (updateFeedItems { feed with lastUpdateTime := some pollTime } items
        (getFeedCutoffTime
          (updateFeedItems feed items (getFeedCutoffTime db0) p q db0).db) p q
        (updateFeedItems feed items (getFeedCutoffTime db0) p q db0).db).db =
      (updateFeedItems feed items (getFeedCutoffTime db0) p q db0).db ∧
    (updateFeedItems { feed with lastUpdateTime := some pollTime } items
        (getFeedCutoffTime
          (updateFeedItems feed items (getFeedCutoffTime db0) p q db0).db) p q
        (updateFeedItems feed items (getFeedCutoffTime db0) p q db0).db).recorded = 0 ∧
    (updateFeedItems { feed with lastUpdateTime := some pollTime } items
        (getFeedCutoffTime
          (updateFeedItems feed items (getFeedCutoffTime db0) p q db0).db) p q
        (updateFeedItems feed items (getFeedCutoffTime db0) p q db0).db).err = none := by
  obtain ⟨_, harch, hext, _, _, hset⟩ :=
    updateFeedItems_establish feed (getFeedCutoffTime db0) p q items db0 hwf h1
  have hcc := getFeedCutoffTime_mono harch hext
  exact updateFeedItems_noop { feed with lastUpdateTime := some pollTime } pollTime
    (getFeedCutoffTime (updateFeedItems feed items (getFeedCutoffTime db0) p q db0).db)
    p q rfl items (updateFeedItems feed items (getFeedCutoffTime db0) p q db0).db
    (fun i hi => settled_mono_cutoff hcc (hset i hi))

/-- Claim C7 witness: a concrete first poll records one item; the immediate
second run over the same payload records nothing and leaves the
database unchanged. -/
theorem claim_C7_witness :
    WF ⟨[], [], [], 0⟩ ∧
    (updateFeedItems (DBFeed.mk 1 "f" "http://e/f" 3600 none false)
        [⟨"t", "L", "d", 5, ""⟩]
        (getFeedCutoffTime ⟨[], [], [], 0⟩) false 1 ⟨[], [], [], 0⟩).err = none ∧
    (updateFeedItems
        { DBFeed.mk 1 "f" "http://e/f" 3600 none false with lastUpdateTime := some 50 }
        [⟨"t", "L", "d", 5, ""⟩]
        (getFeedCutoffTime
          (updateFeedItems (DBFeed.mk 1 "f" "http://e/f" 3600 none false)
            [⟨"t", "L", "d", 5, ""⟩]
            (getFeedCutoffTime ⟨[], [], [], 0⟩) false 1 ⟨[], [], [], 0⟩).db) false 1
        (updateFeedItems (DBFeed.mk 1 "f" "http://e/f" 3600 none false)
          [⟨"t", "L", "d", 5, ""⟩]
          (getFeedCutoffTime ⟨[], [], [], 0⟩) false 1 ⟨[], [], [], 0⟩).db).recorded = 0 :=
  ⟨by decide, by decide,
    (claim_C7 (DBFeed.mk 1 "f" "http://e/f" 3600 none false) ⟨[], [], [], 0⟩
      [⟨"t", "L", "d", 5, ""⟩] false 1 50 (by decide) (by decide)).2.1⟩

end Gorse
